import Mathlib

/-!
Verification of the `ds_broadcaster` package (modules `formatting.py`,
`registry.py`, `broadcaster.py`) against its natural-language specification.

The Python code is shallowly embedded: Python dicts become association
lists (insertion-ordered, as CPython dicts are), Python sets become
duplicate-free insertion-ordered lists, `asyncio.Queue` contents become
`List QItem`, and the process-wide event-loop reference becomes a small
inductive `LoopState`.  All definitions are executable.
-/

namespace DsBroadcaster

/-! ## formatting.py -/

/-- The whitespace characters recognised by Python's `str.split()`
(ASCII fragment). -/
def isPySpace (c : Char) : Bool :=
  c == ' ' || c == '\t' || c == '\n' || c == '\r' || c == '\x0b' || c == '\x0c'

/-- Helper for `str.split()`: scan the characters, accumulating the current
word (in reverse) in `acc`, emitting a word at each whitespace run. -/
def splitWords : List Char → List Char → List (List Char)
  | [], acc => if acc.isEmpty then [] else [acc.reverse]
  | c :: cs, acc =>
      if isPySpace c then
        if acc.isEmpty then splitWords cs [] else acc.reverse :: splitWords cs []
      else
        splitWords cs (c :: acc)

/-- `' '.join(words)` at the character level. -/
def joinWords : List (List Char) → List Char
  | [] => []
  | [w] => w
  | w :: ws => w ++ ' ' :: joinWords ws

/-- `' '.join(s.split())`: split on whitespace runs (dropping leading and
trailing whitespace) and re-join the words with single spaces. -/
def pyCollapse (s : String) : String :=
  String.mk (joinWords (splitWords s.data []))

/-- `"\n".join(lines)`. -/
def joinLines : List String → String
  | [] => ""
  | [l] => l
  | l :: ls => l ++ "\n" ++ joinLines ls

/-- `formatting.format_patch_elements(html, *, selector=None, mode=None)`:
build the list of SSE lines (event line, optional mode line, optional
selector line, elements line with whitespace-collapsed markup), join with
newlines and terminate the frame with a blank line. -/
def format_patch_elements (html : String) (selector : Option String)
    (mode : Option String) : String :=
  joinLines (["event: datastar-patch-elements"]
      ++ (match mode with | some m => ["data: mode " ++ m] | none => [])
      ++ (match selector with | some s => ["data: selector " ++ s] | none => [])
      ++ ["data: elements " ++ pyCollapse html]) ++ "\n\n"

/-- JSON values appearing as signal values (the fragment of
JSON-serializable Python values the package's signal maps use). -/
inductive JVal where
  | num (n : Int)
  | str (s : String)
  | bool (b : Bool)
  | null
deriving DecidableEq

/-- Lowercase hexadecimal digit, as `json.dumps` emits in escapes. -/
def hexDigit (n : Nat) : Char :=
  if n < 10 then Char.ofNat (48 + n) else Char.ofNat (87 + n)

/-- Four lowercase hex digits. -/
def hex4 (n : Nat) : String :=
  String.mk [hexDigit (n / 4096 % 16), hexDigit (n / 256 % 16),
             hexDigit (n / 16 % 16), hexDigit (n % 16)]

/-- `\uXXXX` escape (with a surrogate pair above the BMP), as produced by
`json.dumps` with its default `ensure_ascii=True`. -/
def uEscape (n : Nat) : String :=
  if n < 65536 then "\\u" ++ hex4 n
  else
    "\\u" ++ hex4 (55296 + (n - 65536) / 1024)
      ++ "\\u" ++ hex4 (56320 + (n - 65536) % 1024)

/-- Escape one character of a JSON string as `json.dumps` does. -/
def jEscapeChar (c : Char) : String :=
  if c = '"' then "\\\""
  else if c = '\\' then "\\\\"
  else if c = '\n' then "\\n"
  else if c = '\t' then "\\t"
  else if c = '\r' then "\\r"
  else if c = '\x08' then "\\b"
  else if c = '\x0c' then "\\f"
  else if c.toNat < 32 || c.toNat > 126 then uEscape c.toNat
  else String.singleton c

/-- A JSON string literal with its quotes. -/
def jString (s : String) : String :=
  "\"" ++ String.join (s.data.map jEscapeChar) ++ "\""

/-- Serialize one JSON value. -/
def jValStr : JVal → String
  | .num n => toString n
  | .str s => jString s
  | .bool true => "true"
  | .bool false => "false"
  | .null => "null"

/-- `",".join(parts)` (comma separator, as `separators=(",", ":")`). -/
def joinComma : List String → String
  | [] => ""
  | [x] => x
  | x :: xs => x ++ "," ++ joinComma xs

/-- `json.dumps(signals, separators=(",", ":"))` on a signal map, modelled
as an insertion-ordered association list (CPython dicts preserve insertion
order and `json.dumps` does not sort keys by default). -/
def jdumps (m : List (String × JVal)) : String :=
  "\x7b" ++ joinComma (m.map (fun p => jString p.1 ++ ":" ++ jValStr p.2)) ++ "\x7d"

/-- `formatting.format_patch_signals(signals)`. -/
def format_patch_signals (signals : List (String × JVal)) : String :=
  "event: datastar-patch-signals\ndata: signals " ++ jdumps signals ++ "\n\n"

/-- `formatting.HEARTBEAT`. -/
def HEARTBEAT : String := ": ping\n\n"

/-! ## registry.py

Python dicts are modelled as insertion-ordered association lists
(`dictGet` is `d.get(k)` / `d[k]`, `dictSet` is `d[k] = v` which
overwrites in place or appends a new key at the end, `dictPop` is
`d.pop(k, default)`'s effect on the dict).  Python sets of queues are
modelled as duplicate-free insertion-ordered lists. -/

/-- Look a key up in an association list (first match), `d.get(k)`. -/
def dictGet [DecidableEq α] (l : List (α × β)) (k : α) : Option β :=
  match l with
  | [] => none
  | p :: rest => if p.1 = k then some p.2 else dictGet rest k

/-- `d[k] = v`: overwrite in place if the key is present, else append. -/
def dictSet [DecidableEq α] (l : List (α × β)) (k : α) (v : β) : List (α × β) :=
  match l with
  | [] => [(k, v)]
  | p :: rest => if p.1 = k then (k, v) :: rest else p :: dictSet rest k v

/-- Remove a key, `d.pop(k, default)`'s effect on the dict. -/
def dictPop [DecidableEq α] (l : List (α × β)) (k : α) : List (α × β) :=
  l.filter (fun p => if p.1 = k then false else true)

/-- Queues are identified by a number (each `asyncio.Queue()` object is a
fresh identity). -/
abbrev QueueId := Nat

/-- A user id as stored by the registry: `some n` is a Python int,
`none` is Python `None` (e.g. `AnonymousUser.pk`). -/
abbrev UserId := Option Int

/-- A configuration value: `some i` identifies a callback function object,
`none` is Python `None`. -/
abbrev CfgVal := Option Nat

/-- A `**config` kwargs dict as stored per channel. -/
abbrev Config := List (String × CfgVal)

/-- The process-wide event-loop reference held by the registry:
not set yet (`None`), set and running, or set but closed. -/
inductive LoopState where
  | noLoop
  | openLoop
  | closedLoop
deriving DecidableEq

/-- The state of `ChannelRegistry`: `_channels`, `_channel_config`,
`_queue_info` and `_loop`.  (The mutex serializes each method; each
method is one atomic state transition here.) -/
structure RegistryState where
  channels : List (String × List QueueId)
  channelConfig : List (String × Config)
  queueInfo : List (QueueId × UserId)
  loop : LoopState
deriving DecidableEq

/-- `ChannelRegistry.create(channel, **config)`: insert an empty
subscriber set if the channel is absent, storing the config only then and
only when it is non-empty (`if config:`); otherwise a no-op. -/
def rcreate (s : RegistryState) (channel : String) (config : Config) :
    RegistryState :=
  if (dictGet s.channels channel).isSome then s
  else
    let s1 := { s with channels := dictSet s.channels channel [] }
    if config.isEmpty then s1
    else { s1 with channelConfig := dictSet s1.channelConfig channel config }

/-- `ChannelRegistry.destroy(channel)`: pop the channel, drop the
queue-info of each of its queues, pop its config. -/
def rdestroy (s : RegistryState) (channel : String) : RegistryState :=
  let queues := (dictGet s.channels channel).getD []
  { s with
    channels := dictPop s.channels channel,
    queueInfo := s.queueInfo.filter (fun p => if p.1 ∈ queues then false else true),
    channelConfig := dictPop s.channelConfig channel }

/-- `ChannelRegistry.get_config(channel)`: the stored config or `{}`. -/
def rget_config (s : RegistryState) (channel : String) : Config :=
  (dictGet s.channelConfig channel).getD []

/-- `ChannelRegistry.add_user(channel, queue, user_id)`: create the
channel if needed, add the queue to its set, record the user id. -/
def radd_user (s : RegistryState) (channel : String) (queue : QueueId)
    (uid : UserId) : RegistryState :=
  let chans :=
    if (dictGet s.channels channel).isSome then s.channels
    else dictSet s.channels channel []
  let cur := (dictGet chans channel).getD []
  { s with
    channels := dictSet chans channel (if queue ∈ cur then cur else cur ++ [queue]),
    queueInfo := dictSet s.queueInfo queue uid }

/-- `ChannelRegistry.remove_user(channel, queue)`: discard the queue from
the channel's set, delete the channel when the set becomes empty, and pop
the queue's user-id association. -/
def rremove_user (s : RegistryState) (channel : String) (queue : QueueId) :
    RegistryState :=
  let s1 :=
    match dictGet s.channels channel with
    | none => s
    | some users =>
        let users1 := users.filter (fun q => if q = queue then false else true)
        if users1.isEmpty then { s with channels := dictPop s.channels channel }
        else { s with channels := dictSet s.channels channel users1 }
  { s1 with queueInfo := dictPop s1.queueInfo queue }

/-- `ChannelRegistry.get_channels()`. -/
def rget_channels (s : RegistryState) : List String :=
  s.channels.map (fun p => p.1)

/-- `ChannelRegistry.get_queues(channel)`: a snapshot (list copy) of the
channel's queues, `[]` for an unknown channel. -/
def rget_queues (s : RegistryState) (channel : String) : List QueueId :=
  (dictGet s.channels channel).getD []

/-- `ChannelRegistry.get_users(channel)`: the user id of each queue on
the channel that has one recorded. -/
def rget_users (s : RegistryState) (channel : String) : List UserId :=
  match dictGet s.channels channel with
  | none => []
  | some queues => queues.filterMap (fun q => dictGet s.queueInfo q)

/-- `ChannelRegistry.get_queues_for_user(channel, user_id)`: queues whose
recorded user id equals `user_id` (`self._queue_info.get(q) == user_id`,
where a missing queue yields Python `None`). -/
def rget_queues_for_user (s : RegistryState) (channel : String)
    (uid : UserId) : List QueueId :=
  match dictGet s.channels channel with
  | none => []
  | some queues =>
      queues.filter (fun q => if (dictGet s.queueInfo q).getD none = uid then true else false)

/-- `registry.set_loop(loop)`. -/
def rset_loop (s : RegistryState) (l : LoopState) : RegistryState :=
  { s with loop := l }

/-! ## broadcaster.py -/

/-- One item in a subscriber's `asyncio.Queue`: a formatted frame string,
or the `_CLOSE` sentinel. -/
inductive QItem where
  | frame (s : String)
  | close
deriving DecidableEq

/-- The contents of every subscriber queue, keyed by queue identity. -/
abbrev Buffers := List (QueueId × List QItem)

/-- The combined mutable state the broadcaster operates on: the registry
plus the contents of the queues it enqueues into. -/
structure SysState where
  reg : RegistryState
  buffers : Buffers
deriving DecidableEq

/-- `loop and not loop.is_closed()`: there is a usable home loop to
deliver on (the cross-context delivery protocol otherwise drops the
call). -/
def loopActive (r : RegistryState) : Bool :=
  match r.loop with
  | .openLoop => true
  | _ => false

/-- `queue.put_nowait(item)` on one queue: append the item to that
queue's contents. -/
def bufAppend (b : Buffers) (q : QueueId) (it : QItem) : Buffers :=
  b.map (fun p => if p.1 = q then (p.1, p.2 ++ [it]) else p)

/-- Enqueue an item into each queue of a snapshot, in snapshot order
(whether directly via `put_nowait` on the home loop or marshalled there
via `call_soon_threadsafe`, the item ends up appended to each queue). -/
def bufAppendAll (b : Buffers) (qs : List QueueId) (it : QItem) : Buffers :=
  qs.foldl (fun acc q => bufAppend acc q it) b

/-- `Broadcaster._put(channel, event)`: take the registry's snapshot of
the channel's queues; return unchanged if it is empty or there is no
usable home loop; otherwise enqueue the event into every queue of the
snapshot. -/
def bput (s : SysState) (channel : String) (event : String) : SysState :=
  let queues := rget_queues s.reg channel
  if queues.isEmpty then s
  else if loopActive s.reg = false then s
  else { s with buffers := bufAppendAll s.buffers queues (QItem.frame event) }

/-- `Broadcaster.elements(channel, html, selector=…, mode=…)`
(`publish_elements`): format a patch-elements frame and `_put` it. -/
def broadcast_elements (s : SysState) (channel : String) (html : String)
    (selector : Option String) (mode : Option String) : SysState :=
  bput s channel (format_patch_elements html selector mode)

/-- `Broadcaster.signals(channel, signals)` (`publish_signals`): format a
patch-signals frame and `_put` it. -/
def broadcast_signals (s : SysState) (channel : String)
    (signals : List (String × JVal)) : SysState :=
  bput s channel (format_patch_signals signals)

/-- `Broadcaster.new(channel, presence_callback=cb)`: delegate to
`registry.create(channel, presence_callback=cb)` (the kwargs dict always
has the one key). -/
def broadcast_new (s : SysState) (channel : String) (cb : CfgVal) : SysState :=
  { s with reg := rcreate s.reg channel [("presence_callback", cb)] }

/-- `Broadcaster.disconnect(channel, user_id)` (`close_user_connections`):
look up the user's queues; if there are none, or no usable home loop,
return unchanged; otherwise enqueue the close sentinel into each. -/
def bdisconnect (s : SysState) (channel : String) (uid : UserId) : SysState :=
  let queues := rget_queues_for_user s.reg channel uid
  if queues.isEmpty then s
  else if loopActive s.reg = false then s
  else { s with buffers := bufAppendAll s.buffers queues QItem.close }

/-- `Broadcaster.kill(channel)` (`kill_channel`): take the snapshot of
the channel's queues; if it is non-empty and a usable home loop exists,
enqueue the close sentinel into each queue of the snapshot; then (in
either case) destroy the channel in the registry. -/
def bkill (s : SysState) (channel : String) : SysState :=
  let queues := rget_queues s.reg channel
  let bufs :=
    if queues.isEmpty then s.buffers
    else if loopActive s.reg = false then s.buffers
    else bufAppendAll s.buffers queues QItem.close
  { reg := rdestroy s.reg channel, buffers := bufs }

/-- Helper for `dict.fromkeys`: walk the list keeping each element not
yet seen, in order. -/
def pyDedupAux [DecidableEq α] : List α → List α → List α
  | [], _ => []
  | x :: xs, seen =>
      if x ∈ seen then pyDedupAux xs seen else x :: pyDedupAux xs (x :: seen)

/-- `list(dict.fromkeys(l))`: deduplicate keeping the first occurrence of
each element, preserving order. -/
def pyDedup [DecidableEq α] (l : List α) : List α :=
  pyDedupAux l []

/-- The presence callback configured for a channel:
`registry.get_config(channel).get("presence_callback")` (missing key and
a stored `None` both give `None`). -/
def presence_callback_of (r : RegistryState) (channel : String) : CfgVal :=
  (dictGet (rget_config r channel) "presence_callback").getD none

/-- The argument `Broadcaster._broadcast_presence(channel)` passes to the
presence callback: `None` when no callback is configured (the method
returns without firing), otherwise the deduplicated
`list(dict.fromkeys(registry.get_users(channel)))`. -/
def presenceInput (r : RegistryState) (channel : String) :
    Option (List UserId) :=
  match presence_callback_of r channel with
  | none => none
  | some _ => some (pyDedup (rget_users r channel))

/-- A request principal (`await request.auser()`): `pk = none` models an
object without a `pk` attribute, `pk = some v` an object whose `pk`
attribute holds `v` (`v = none` being Python `None`). -/
structure Principal where
  pk : Option (Option Int)
deriving DecidableEq

/-- `user.pk if hasattr(user, "pk") else 0` in `Broadcaster._add_user`. -/
def resolve_user_id (u : Principal) : UserId :=
  match u.pk with
  | none => some 0
  | some v => v

/-- `Broadcaster._add_user(channel, queue, user)`: resolve the user id
and register the queue (the subsequent presence broadcast is observed via
`presenceInput`). -/
def badd_user (s : SysState) (channel : String) (queue : QueueId)
    (u : Principal) : SysState :=
  { s with reg := radd_user s.reg channel queue (resolve_user_id u) }

/-! ## Spec-side definitions and concrete states used by the theorems -/

/-- The optional `data: mode …` line of a patch-elements frame. -/
def modeDirective : Option String → String
  | some m => "data: mode " ++ m ++ "\n"
  | none => ""

/-- The optional `data: selector …` line of a patch-elements frame. -/
def selectorDirective : Option String → String
  | some s => "data: selector " ++ s ++ "\n"
  | none => ""

/-- Collapse every maximal run of whitespace characters to a single
space, touching nothing else.  This follows the specification's words
("the markup with all internal whitespace runs collapsed to single
spaces") rather than the source, for comparison against
`pyCollapse`. -/
def specCollapseWS (cs : List Char) : List Char :=
  match cs with
  | [] => []
  | [c] => if isPySpace c then [' '] else [c]
  | c1 :: c2 :: rest =>
      if isPySpace c1 && isPySpace c2 then specCollapseWS (c2 :: rest)
      else (if isPySpace c1 then ' ' else c1) :: specCollapseWS (c2 :: rest)

/-- A concrete system state: channel `c` with queues 1 and 2, channel `d`
with queue 3, an open home loop. -/
def W1 : SysState :=
  { reg := { channels := [("c", [1, 2]), ("d", [3])],
             channelConfig := [],
             queueInfo := [(1, some 7), (2, some 8), (3, some 9)],
             loop := .openLoop },
    buffers := [(1, []), (2, []), (3, [])] }

/-- A concrete system state for the kill witness: channel `c` with
queues 1 and 2, a stored presence callback, queue 1 holding one pending
frame, an open home loop. -/
def W4 : SysState :=
  { reg := { channels := [("c", [1, 2])],
             channelConfig := [("c", [("presence_callback", some 5)])],
             queueInfo := [(1, some 7), (2, some 7)],
             loop := .openLoop },
    buffers := [(1, [QItem.frame "f"]), (2, [])] }

/-- An empty registry. -/
def RW0 : RegistryState :=
  { channels := [], channelConfig := [], queueInfo := [], loop := .noLoop }

/-- A registry with a one-subscriber channel `c` and a two-subscriber
channel `d`. -/
def RW6 : RegistryState :=
  { channels := [("c", [1]), ("d", [2, 3])],
    channelConfig := [], queueInfo := [(1, some 1), (2, some 2), (3, some 3)],
    loop := .openLoop }

/-- The empty system state (no channels, no queues, no loop recorded). -/
def S0 : SysState := { reg := RW0, buffers := [] }

/-- A registry whose channel `c` has a single subscriber (queue 1) and a
stored presence callback. -/
def RW9 : RegistryState :=
  { channels := [("c", [1])],
    channelConfig := [("c", [("presence_callback", some 3)])],
    queueInfo := [(1, some 4)], loop := .openLoop }

/-- Ordering on stored user ids used only to express the specification's
word "sorted" (`None` before the ints, ints by value). -/
def uidLe (x y : UserId) : Bool :=
  match x, y with
  | none, _ => true
  | some _, none => false
  | some a, some b => if a ≤ b then true else false

/-- Insertion step of an insertion sort on user ids. -/
def insertUid (x : UserId) : List UserId → List UserId
  | [] => [x]
  | y :: ys => if uidLe x y then x :: y :: ys else y :: insertUid x ys

/-- The specification's words, not the source: the sorted, duplicate-free
list of user ids (dedup, then insertion sort). -/
def specSortedUnique (l : List UserId) : List UserId :=
  (pyDedup l).foldr insertUid []

/-- A registry whose channel `c` has queue 10 of user 2 and queue 11 of
user 1 (in that registry order), with a presence callback configured. -/
def R3 : RegistryState :=
  { channels := [("c", [10, 11])],
    channelConfig := [("c", [("presence_callback", some 7)])],
    queueInfo := [(10, some 2), (11, some 1)], loop := .openLoop }

/-! ## Helper lemmas -/

theorem dictGet_dictSet_self [DecidableEq α] (l : List (α × β)) (k : α) (v : β) :
    dictGet (dictSet l k v) k = some v := by
  induction l with
  | nil => simp [dictGet, dictSet]
  | cons p rest ih =>
      by_cases h : p.1 = k
      · simp [dictGet, dictSet, h]
      · simp [dictGet, dictSet, h, ih]

theorem dictGet_dictSet_ne [DecidableEq α] (l : List (α × β)) (k k' : α) (v : β)
    (h : k' ≠ k) : dictGet (dictSet l k v) k' = dictGet l k' := by
  have hkk : ¬ (k = k') := fun hh => h hh.symm
  induction l with
  | nil => simp [dictGet, dictSet, hkk]
  | cons p rest ih =>
      by_cases hp : p.1 = k
      · have hp' : ¬ p.1 = k' := by rw [hp]; exact hkk
        simp [dictGet, dictSet, hp, hkk, hp']
      · simp only [dictSet, if_neg hp, dictGet]
        by_cases hp' : p.1 = k' <;> simp [hp', ih]

theorem dictPop_cons [DecidableEq α] (p : α × β) (rest : List (α × β)) (k : α) :
    dictPop (p :: rest) k =
      if p.1 = k then dictPop rest k else p :: dictPop rest k := by
  by_cases h : p.1 = k <;> simp [dictPop, List.filter_cons, h]

theorem dictGet_dictPop_self [DecidableEq α] (l : List (α × β)) (k : α) :
    dictGet (dictPop l k) k = none := by
  induction l with
  | nil => simp [dictGet, dictPop]
  | cons p rest ih =>
      rw [dictPop_cons]
      by_cases h : p.1 = k
      · simpa [h] using ih
      · simpa [dictGet, h] using ih

theorem dictGet_dictPop_ne [DecidableEq α] (l : List (α × β)) (k k' : α)
    (h : k' ≠ k) : dictGet (dictPop l k) k' = dictGet l k' := by
  induction l with
  | nil => simp [dictGet, dictPop]
  | cons p rest ih =>
      have hkk : ¬ (k = k') := fun hh => h hh.symm
      rw [dictPop_cons]
      by_cases hp : p.1 = k
      · have hp' : ¬ p.1 = k' := by rw [hp]; exact hkk
        simpa [dictGet, hp', hp, hkk, h] using ih
      · by_cases hp' : p.1 = k'
        · simp [dictGet, hp', hp, hkk, h]
        · simpa [dictGet, hp', hp] using ih

theorem mem_fst_dictSet [DecidableEq α] (l : List (α × β)) (k : α) (v : β) :
    k ∈ (dictSet l k v).map (fun p => p.1) := by
  induction l with
  | nil => simp [dictSet]
  | cons p rest ih =>
      by_cases h : p.1 = k
      · simp [dictSet, h]
      · simp only [dictSet, if_neg h, List.map_cons, List.mem_cons]
        exact Or.inr ih

theorem not_mem_fst_dictPop [DecidableEq α] (l : List (α × β)) (k : α) :
    k ∉ (dictPop l k).map (fun p => p.1) := by
  induction l with
  | nil => simp [dictPop]
  | cons p rest ih =>
      rw [dictPop_cons]
      by_cases h : p.1 = k
      · simpa [h] using ih
      · simp only [if_neg h, List.map_cons, List.mem_cons]
        intro hc
        rcases hc with h1 | h2
        · exact h h1.symm
        · exact ih h2

theorem dictGet_bufAppend (b : Buffers) (q0 : QueueId) (it : QItem) (q : QueueId) :
    dictGet (bufAppend b q0 it) q =
      if q = q0 then (dictGet b q).map (fun l => l ++ [it])
      else dictGet b q := by
  induction b with
  | nil => simp [bufAppend, dictGet]
  | cons p rest ih =>
      have hcons : bufAppend (p :: rest) q0 it =
          (if p.1 = q0 then (p.1, p.2 ++ [it]) else p) :: bufAppend rest q0 it := by
        simp [bufAppend]
      rw [hcons]
      by_cases hp : p.1 = q0
      · rw [if_pos hp]
        by_cases hpq : p.1 = q
        · have hq0 : q = q0 := hpq.symm.trans hp
          simp [dictGet, hpq, hq0]
        · have hq0 : ¬ q = q0 := fun hh => hpq (hp.trans hh.symm)
          simp [dictGet, hpq, hq0, ih]
      · rw [if_neg hp]
        by_cases hpq : p.1 = q
        · have hq0 : ¬ q = q0 := fun hh => hp (hpq.trans hh)
          simp [dictGet, hpq, hq0]
        · simp [dictGet, hpq, ih]

theorem dictGet_bufAppendAll (qs : List QueueId) (b : Buffers) (it : QItem)
    (q : QueueId) (hnd : qs.Nodup) :
    dictGet (bufAppendAll b qs it) q =
      if q ∈ qs then (dictGet b q).map (fun l => l ++ [it])
      else dictGet b q := by
  induction qs generalizing b with
  | nil => simp [bufAppendAll]
  | cons q1 qs ih =>
      have hnd1 : qs.Nodup := (List.nodup_cons.mp hnd).2
      have hq1 : q1 ∉ qs := (List.nodup_cons.mp hnd).1
      have step : bufAppendAll b (q1 :: qs) it = bufAppendAll (bufAppend b q1 it) qs it := rfl
      rw [step, ih _ hnd1]
      by_cases heq : q = q1
      · subst heq
        simp [hq1, dictGet_bufAppend, List.mem_cons]
      · by_cases hmem : q ∈ qs
        · simp [hmem, dictGet_bufAppend, heq, List.mem_cons]
        · simp [hmem, dictGet_bufAppend, heq, List.mem_cons]

theorem mem_pyDedupAux [DecidableEq α] (a : α) (l : List α) : ∀ seen,
    (a ∈ pyDedupAux l seen ↔ a ∈ l ∧ a ∉ seen) := by
  induction l with
  | nil => intro seen; simp [pyDedupAux]
  | cons x xs ih =>
      intro seen
      by_cases hx : x ∈ seen
      · rw [pyDedupAux, if_pos hx, ih seen, List.mem_cons]
        constructor
        · exact fun h => ⟨Or.inr h.1, h.2⟩
        · intro h
          rcases h.1 with h1 | h1
          · exact absurd (h1 ▸ hx) h.2
          · exact ⟨h1, h.2⟩
      · rw [pyDedupAux, if_neg hx, List.mem_cons, ih (x :: seen), List.mem_cons]
        by_cases hax : a = x
        · simp [hax, hx]
        · simp [hax]

theorem mem_pyDedup [DecidableEq α] (a : α) (l : List α) :
    a ∈ pyDedup l ↔ a ∈ l := by
  rw [pyDedup, mem_pyDedupAux]
  simp

theorem nodup_pyDedupAux [DecidableEq α] (l : List α) : ∀ seen,
    (pyDedupAux l seen).Nodup := by
  induction l with
  | nil => intro seen; simp [pyDedupAux]
  | cons x xs ih =>
      intro seen
      by_cases hx : x ∈ seen
      · rw [pyDedupAux, if_pos hx]
        exact ih seen
      · rw [pyDedupAux, if_neg hx]
        refine List.nodup_cons.mpr ⟨?_, ih (x :: seen)⟩
        intro hmem
        have h2 := (mem_pyDedupAux x xs (x :: seen)).mp hmem
        exact h2.2 (List.mem_cons_self x seen)

theorem nodup_pyDedup [DecidableEq α] (l : List α) : (pyDedup l).Nodup :=
  nodup_pyDedupAux l []

theorem splitWords_no_space (cs : List Char) : ∀ acc,
    (∀ a ∈ acc, isPySpace a = false) →
    ∀ w ∈ splitWords cs acc, ∀ c ∈ w, isPySpace c = false := by
  induction cs with
  | nil =>
      intro acc hacc w hw c hc
      by_cases he : acc.isEmpty
      · simp [splitWords, he] at hw
      · simp [splitWords, he] at hw
        subst hw
        exact hacc c (List.mem_reverse.mp hc)
  | cons c0 cs ih =>
      intro acc hacc w hw c hc
      by_cases hsp : isPySpace c0 = true
      · by_cases he : acc.isEmpty
        · rw [splitWords, if_pos hsp, if_pos he] at hw
          exact ih [] (by simp) w hw c hc
        · rw [splitWords, if_pos hsp, if_neg he] at hw
          rcases List.mem_cons.mp hw with h1 | h2
          · subst h1
            exact hacc c (List.mem_reverse.mp hc)
          · exact ih [] (by simp) w h2 c hc
      · rw [splitWords, if_neg hsp] at hw
        refine ih (c0 :: acc) ?_ w hw c hc
        intro a ha
        rcases List.mem_cons.mp ha with h1 | h2
        · subst h1
          exact Bool.eq_false_iff.mpr hsp
        · exact hacc a h2

theorem no_newline_joinWords (ws : List (List Char))
    (h : ∀ w ∈ ws, ∀ a ∈ w, isPySpace a = false) : '\n' ∉ joinWords ws := by
  induction ws with
  | nil => simp [joinWords]
  | cons w ws ih =>
      cases ws with
      | nil =>
          simp only [joinWords]
          intro hmem
          have := h w (by simp) '\n' hmem
          simp [isPySpace] at this
      | cons w2 ws2 =>
          simp only [joinWords, List.mem_append, List.mem_cons]
          intro hmem
          rcases hmem with h1 | h2 | h3
          · have := h w (by simp) '\n' h1
            simp [isPySpace] at this
          · exact absurd h2 (by decide)
          · exact ih (fun w' hw' => h w' (List.mem_cons_of_mem _ hw')) h3

theorem no_newline_pyCollapse (s : String) : '\n' ∉ (pyCollapse s).data := by
  have hw := splitWords_no_space s.data [] (by simp)
  simpa [pyCollapse] using no_newline_joinWords _ hw


/-! ## Claim theorems -/

/-- C2 counterexample: the code's event line is
`event: datastar-patch-signals`, so on the claim's own example input the
result is not the claimed string `event: patch-signals\n…`. -/
theorem format_signals_event_name_cex :
    format_patch_signals [("a", JVal.num 1), ("b", JVal.str "x")]
      ≠ "event: patch-signals\ndata: signals \x7b\"a\":1,\"b\":\"x\"\x7d\n\n" := by
  decide

/-- C2 (amended): `format_signals({"a":1,"b":"x"})` returns exactly
`event: datastar-patch-signals\ndata: signals {"a":1,"b":"x"}\n\n`; in
general `format_signals` serializes its map to compact JSON (separators
`","` and `":"`, keys in insertion order) in a single
`datastar-patch-signals` frame. -/
theorem format_signals_compact :
    format_patch_signals [("a", JVal.num 1), ("b", JVal.str "x")]
      = "event: datastar-patch-signals\ndata: signals \x7b\"a\":1,\"b\":\"x\"\x7d\n\n"
    ∧ (∀ m : List (String × JVal),
        format_patch_signals m
          = "event: datastar-patch-signals\ndata: signals " ++ jdumps m ++ "\n\n")
    ∧ (∀ (k1 k2 : String) (v1 v2 : JVal),
        jdumps [(k1, v1), (k2, v2)]
          = "\x7b" ++ jString k1 ++ ":" ++ jValStr v1 ++ ","
              ++ jString k2 ++ ":" ++ jValStr v2 ++ "\x7d") := by
  refine ⟨by decide, fun m => rfl, fun k1 k2 v1 v2 => ?_⟩
  apply String.ext
  simp [jdumps, joinComma, String.data_append, List.append_assoc]

/-- C8 counterexample: `format_elements " a"` drops the leading space of
the markup (`' '.join(html.split())` trims), so the elements line is not
the markup with only its internal whitespace runs collapsed
(`specCollapseWS` leaves the leading space in place). -/
theorem format_elements_trims_cex :
    format_patch_elements " a" none none
      = "event: datastar-patch-elements\ndata: elements a\n\n"
    ∧ String.mk (specCollapseWS (" a").data) = " a"
    ∧ format_patch_elements " a" none none
      ≠ "event: datastar-patch-elements\ndata: elements "
          ++ String.mk (specCollapseWS (" a").data) ++ "\n\n" := by
  refine ⟨by decide, by decide, by decide⟩

/-- C8 (amended): `format_elements` emits, in order, the event line, an
optional mode directive line (only when a mode is given), an optional
selector directive line (only when a selector is given), then an elements
line whose content is the markup whitespace-normalized (leading and
trailing whitespace removed and internal whitespace runs collapsed to
single spaces — `' '.join(html.split())`); the normalized content holds
no newline, so the frame ends with exactly one blank line as frame
delimiter. -/
theorem format_elements_structure (html : String) (sel mode : Option String) :
    format_patch_elements html sel mode
      = "event: datastar-patch-elements\n" ++ modeDirective mode
          ++ selectorDirective sel ++ "data: elements " ++ pyCollapse html ++ "\n\n"
    ∧ '\n' ∉ (pyCollapse html).data := by
  constructor
  · cases mode <;> cases sel <;>
      (apply String.ext
       simp [format_patch_elements, joinLines, modeDirective, selectorDirective,
             String.data_append, List.append_assoc])
  · exact no_newline_pyCollapse html

theorem bput_fanout (s : SysState) (channel : String) (event : String)
    (hnd : (rget_queues s.reg channel).Nodup)
    (hloop : loopActive s.reg = true) :
    (bput s channel event).reg = s.reg ∧
    ∀ q : QueueId,
      dictGet (bput s channel event).buffers q =
        if q ∈ rget_queues s.reg channel then
          (dictGet s.buffers q).map (fun l => l ++ [QItem.frame event])
        else dictGet s.buffers q := by
  cases hqs : rget_queues s.reg channel with
  | nil =>
      have hb : bput s channel event = s := by
        simp [bput, hqs]
      rw [hb]
      exact ⟨rfl, fun q => by simp⟩
  | cons q1 qs =>
      rw [hqs] at hnd
      have hb : bput s channel event
          = { s with buffers := bufAppendAll s.buffers (q1 :: qs) (QItem.frame event) } := by
        simp [bput, hqs, hloop]
      rw [hb]
      exact ⟨rfl, fun q => dictGet_bufAppendAll _ _ _ _ hnd⟩

/-- C1: a publish call (`elements` or `signals`, under the delivery
protocol, i.e. with an active home loop) enqueues the formatted frame at
the tail of every queue in the registry's snapshot of the channel taken
at call time, changes no queue outside that snapshot (so queues of other
channels are untouched), and leaves the registry unchanged. -/
theorem publish_fanout (s : SysState) (channel : String) (html : String)
    (sel mode : Option String) (sigs : List (String × JVal))
    (hnd : (rget_queues s.reg channel).Nodup)
    (hloop : loopActive s.reg = true) :
    ((broadcast_elements s channel html sel mode).reg = s.reg ∧
      ∀ q : QueueId,
        dictGet (broadcast_elements s channel html sel mode).buffers q =
          if q ∈ rget_queues s.reg channel then
            (dictGet s.buffers q).map
              (fun l => l ++ [QItem.frame (format_patch_elements html sel mode)])
          else dictGet s.buffers q) ∧
    ((broadcast_signals s channel sigs).reg = s.reg ∧
      ∀ q : QueueId,
        dictGet (broadcast_signals s channel sigs).buffers q =
          if q ∈ rget_queues s.reg channel then
            (dictGet s.buffers q).map
              (fun l => l ++ [QItem.frame (format_patch_signals sigs)])
          else dictGet s.buffers q) :=
  ⟨bput_fanout s channel (format_patch_elements html sel mode) hnd hloop,
   bput_fanout s channel (format_patch_signals sigs) hnd hloop⟩


theorem publish_fanout_witness :
    (rget_queues W1.reg "c").Nodup ∧ loopActive W1.reg = true ∧
    dictGet (broadcast_elements W1 "c" "hi" none none).buffers 1
      = some [QItem.frame (format_patch_elements "hi" none none)] ∧
    dictGet (broadcast_elements W1 "c" "hi" none none).buffers 3 = some [] := by
  refine ⟨by decide, by decide, ?_, ?_⟩
  · rw [(publish_fanout W1 "c" "hi" none none [] (by decide) (by decide)).1.2 1]
    decide
  · rw [(publish_fanout W1 "c" "hi" none none [] (by decide) (by decide)).1.2 3]
    decide

/-- C4: `kill_channel` enqueues the close sentinel at the tail of every
queue of the channel's snapshot — under the cross-context delivery
protocol, hence only when an active home loop exists, and leaving every
other queue untouched — and (afterwards, so against the pre-kill
snapshot) removes the channel from the registry: the channel entry is
gone, `connected_user_ids` is empty, its config is cleared, and a
subsequent `create_channel` stores exactly the newly supplied config. -/
theorem kill_channel_spec (s : SysState) (channel : String)
    (hnd : (rget_queues s.reg channel).Nodup) :
    (loopActive s.reg = true →
      ∀ q : QueueId,
        dictGet (bkill s channel).buffers q =
          if q ∈ rget_queues s.reg channel then
            (dictGet s.buffers q).map (fun l => l ++ [QItem.close])
          else dictGet s.buffers q) ∧
    (loopActive s.reg = false → (bkill s channel).buffers = s.buffers) ∧
    dictGet (bkill s channel).reg.channels channel = none ∧
    rget_users (bkill s channel).reg channel = [] ∧
    rget_config (bkill s channel).reg channel = [] ∧
    (∀ cfg : Config,
      rget_config (rcreate (bkill s channel).reg channel cfg) channel
        = if cfg.isEmpty then [] else cfg) := by
  have hchan : dictGet (bkill s channel).reg.channels channel = none :=
    dictGet_dictPop_self _ _
  have hcfg : rget_config (bkill s channel).reg channel = [] := by
    have : dictGet (bkill s channel).reg.channelConfig channel = none :=
      dictGet_dictPop_self _ _
    simp [rget_config, this]
  refine ⟨?_, ?_, hchan, ?_, hcfg, ?_⟩
  · intro hloop q
    cases hqs : rget_queues s.reg channel with
    | nil =>
        have hb : (bkill s channel).buffers = s.buffers := by
          simp [bkill, hqs]
        rw [hb]
        simp
    | cons q1 qs =>
        rw [hqs] at hnd
        have hb : (bkill s channel).buffers
            = bufAppendAll s.buffers (q1 :: qs) QItem.close := by
          simp [bkill, hqs, hloop]
        rw [hb]
        exact dictGet_bufAppendAll _ _ _ _ hnd
  · intro hlf
    by_cases hqs : (rget_queues s.reg channel).isEmpty = true
    · simp [bkill, hqs]
    · simp [bkill, hqs, hlf]
  · simp [rget_users, hchan]
  · intro cfg
    have hsome : (dictGet (bkill s channel).reg.channels channel).isSome = false := by
      simp [hchan]
    by_cases hc : cfg.isEmpty = true
    · simp [rcreate, hsome, hc, rget_config] at hcfg ⊢
      exact hcfg
    · simp [rcreate, hsome, hc, rget_config, dictGet_dictSet_self]


theorem kill_channel_spec_witness :
    (rget_queues W4.reg "c").Nodup ∧ loopActive W4.reg = true ∧
    dictGet (bkill W4 "c").buffers 1 = some [QItem.frame "f", QItem.close] ∧
    rget_users (bkill W4 "c").reg "c" = [] ∧
    rget_config (bkill W4 "c").reg "c" = [] := by
  refine ⟨by decide, by decide, ?_, ?_, ?_⟩
  · rw [(kill_channel_spec W4 "c" (by decide)).1 (by decide) 1]
    decide
  · exact (kill_channel_spec W4 "c" (by decide)).2.2.2.1
  · exact (kill_channel_spec W4 "c" (by decide)).2.2.2.2.1

theorem rcreate_of_mem (s : RegistryState) (ch : String) (c : Config)
    (h : (dictGet s.channels ch).isSome = true) : rcreate s ch c = s := by
  simp [rcreate, h]

/-- C5: channel creation is idempotent.  A second `create` on the same
name, with any (in particular a different) config, is a no-op: it
succeeds (total function) and leaves the state — hence the config stored
by the first call — unchanged; and on an absent channel `create` inserts
an empty subscriber set. -/
theorem create_idempotent (s : RegistryState) (ch : String) (c1 c2 : Config) :
    rcreate (rcreate s ch c1) ch c2 = rcreate s ch c1 ∧
    rget_config (rcreate (rcreate s ch c1) ch c2) ch
      = rget_config (rcreate s ch c1) ch ∧
    (dictGet s.channels ch = none → dictGet (rcreate s ch c1).channels ch = some []) := by
  have hmem : (dictGet (rcreate s ch c1).channels ch).isSome = true := by
    by_cases h : (dictGet s.channels ch).isSome = true
    · simp [rcreate, h]
    · by_cases hc : c1.isEmpty = true <;>
        simp [rcreate, h, hc, dictGet_dictSet_self]
  have hidem := rcreate_of_mem (rcreate s ch c1) ch c2 hmem
  refine ⟨hidem, by rw [hidem], ?_⟩
  intro h
  have h' : (dictGet s.channels ch).isSome = false := by simp [h]
  by_cases hc : c1.isEmpty = true <;>
    simp [rcreate, h', hc, dictGet_dictSet_self]


theorem create_idempotent_witness :
    dictGet RW0.channels "c" = none ∧
    rcreate (rcreate RW0 "c" [("presence_callback", some 1)]) "c"
        [("presence_callback", some 2)]
      = rcreate RW0 "c" [("presence_callback", some 1)] ∧
    dictGet (rcreate RW0 "c" [("presence_callback", some 1)]).channels "c"
      = some [] :=
  ⟨by decide,
   (create_idempotent RW0 "c" [("presence_callback", some 1)]
      [("presence_callback", some 2)]).1,
   (create_idempotent RW0 "c" [("presence_callback", some 1)]
      [("presence_callback", some 2)]).2.2 (by decide)⟩

/-- C6: removing the last subscriber of a channel deletes the channel
entry, so `get_channels` (`active_channels`) no longer lists it; removing
a non-last subscriber (some other queue remains) leaves the channel
listed. -/
theorem remove_subscriber_cleanup (s : RegistryState) (ch : String)
    (q q' : QueueId) (l : List QueueId) :
    (dictGet s.channels ch = some [q] →
      ch ∉ rget_channels (rremove_user s ch q)) ∧
    (dictGet s.channels ch = some l → q' ∈ l → q' ≠ q →
      ch ∈ rget_channels (rremove_user s ch q)) := by
  constructor
  · intro h
    have hch : (rremove_user s ch q).channels = dictPop s.channels ch := by
      simp [rremove_user, h]
    rw [rget_channels, hch]
    exact not_mem_fst_dictPop _ _
  · intro h hq' hne
    have hfil : q' ∈ l.filter (fun x => if x = q then false else true) := by
      rw [List.mem_filter]
      exact ⟨hq', by simp [hne]⟩
    have hnil : l.filter (fun x => if x = q then false else true) ≠ [] :=
      List.ne_nil_of_mem hfil
    have hne2 : (l.filter (fun x => if x = q then false else true)).isEmpty = false := by
      cases hc : l.filter (fun x => if x = q then false else true) with
      | nil => exact absurd hc hnil
      | cons a as => rfl
    have hch : (rremove_user s ch q).channels
        = dictSet s.channels ch (l.filter (fun x => if x = q then false else true)) := by
      simp only [rremove_user, h]
      rw [hne2]
      simp
    rw [rget_channels, hch]
    exact mem_fst_dictSet _ _ _


theorem remove_subscriber_cleanup_witness :
    dictGet RW6.channels "c" = some [1] ∧
    "c" ∉ rget_channels (rremove_user RW6 "c" 1) ∧
    dictGet RW6.channels "d" = some [2, 3] ∧
    "d" ∈ rget_channels (rremove_user RW6 "d" 2) := by
  refine ⟨by decide, ?_, by decide, ?_⟩
  · exact (remove_subscriber_cleanup RW6 "c" 1 0 []).1 (by decide)
  · exact (remove_subscriber_cleanup RW6 "d" 2 3 [2, 3]).2 (by decide) (by decide)
      (by decide)

/-- C7: the documented no-op conditions.  Publishing (elements or
signals) to a channel whose queue snapshot is empty, closing connections
for a user with no queues on the channel, and either operation when no
usable home loop is recorded (never set, or closed), all return the
state — registry and every subscriber queue — unchanged (and raise
nothing: the operations are total). -/
theorem noop_conditions (s : SysState) (ch : String) (html : String)
    (sel mode : Option String) (sigs : List (String × JVal)) (uid : UserId) :
    (rget_queues s.reg ch = [] →
      broadcast_elements s ch html sel mode = s ∧ broadcast_signals s ch sigs = s) ∧
    (rget_queues_for_user s.reg ch uid = [] → bdisconnect s ch uid = s) ∧
    (loopActive s.reg = false →
      broadcast_elements s ch html sel mode = s ∧
      broadcast_signals s ch sigs = s ∧ bdisconnect s ch uid = s) := by
  refine ⟨?_, ?_, ?_⟩
  · intro h
    constructor <;> simp [broadcast_elements, broadcast_signals, bput, h]
  · intro h
    simp [bdisconnect, h]
  · intro h
    refine ⟨?_, ?_, ?_⟩ <;>
      simp [broadcast_elements, broadcast_signals, bput, bdisconnect, h]


theorem noop_conditions_witness :
    rget_queues S0.reg "c" = [] ∧
    rget_queues_for_user S0.reg "c" (some 1) = [] ∧
    loopActive S0.reg = false ∧
    broadcast_elements S0 "c" "h" none none = S0 ∧
    bdisconnect S0 "c" (some 1) = S0 :=
  ⟨by decide, by decide, by decide,
   ((noop_conditions S0 "c" "h" none none [] (some 1)).1 (by decide)).1,
   (noop_conditions S0 "c" "h" none none [] (some 1)).2.1 (by decide)⟩

/-- C9: deleting a channel entry by removing its last subscriber does not
remove the stored config: `get_config` still returns it (so in particular
the presence callback survives), a later `add_user` or config-less
`create` under the same name runs with that old config still stored, and
only an explicit `destroy` clears it. -/
theorem config_survives_removal (s : RegistryState) (ch : String)
    (q q2 : QueueId) (uid : UserId)
    (hlast : dictGet s.channels ch = some [q]) :
    rget_config (rremove_user s ch q) ch = rget_config s ch ∧
    dictGet (rremove_user s ch q).channels ch = none ∧
    rget_config (radd_user (rremove_user s ch q) ch q2 uid) ch = rget_config s ch ∧
    presence_callback_of (radd_user (rremove_user s ch q) ch q2 uid) ch
      = presence_callback_of s ch ∧
    rget_config (rcreate (rremove_user s ch q) ch []) ch = rget_config s ch ∧
    rget_config (rdestroy (rremove_user s ch q) ch) ch = [] := by
  have hcfg : (rremove_user s ch q).channelConfig = s.channelConfig := by
    simp [rremove_user, hlast]
  have hch : (rremove_user s ch q).channels = dictPop s.channels ch := by
    simp [rremove_user, hlast]
  have h1 : rget_config (rremove_user s ch q) ch = rget_config s ch := by
    rw [rget_config, hcfg, rget_config]
  have h2 : dictGet (rremove_user s ch q).channels ch = none := by
    rw [hch]
    exact dictGet_dictPop_self _ _
  have hadd : (radd_user (rremove_user s ch q) ch q2 uid).channelConfig
      = s.channelConfig := by
    rw [radd_user, hcfg]
  have h3 : rget_config (radd_user (rremove_user s ch q) ch q2 uid) ch
      = rget_config s ch := by
    rw [rget_config, hadd, rget_config]
  refine ⟨h1, h2, h3, ?_, ?_, ?_⟩
  · rw [presence_callback_of, h3, presence_callback_of]
  · have hsome : (dictGet (rremove_user s ch q).channels ch).isSome = false := by
      simp [h2]
    have : (rcreate (rremove_user s ch q) ch []).channelConfig = s.channelConfig := by
      simp [rcreate, hsome, hcfg]
    rw [rget_config, this, rget_config]
  · have : (rdestroy (rremove_user s ch q) ch).channelConfig
        = dictPop (rremove_user s ch q).channelConfig ch := rfl
    rw [rget_config, this, dictGet_dictPop_self]
    rfl


theorem config_survives_removal_witness :
    dictGet RW9.channels "c" = some [1] ∧
    rget_config (rremove_user RW9 "c" 1) "c"
      = [("presence_callback", some 3)] ∧
    rget_config (rcreate (rremove_user RW9 "c" 1) "c" []) "c"
      = [("presence_callback", some 3)] ∧
    rget_config (rdestroy (rremove_user RW9 "c" 1) "c") "c" = [] := by
  refine ⟨by decide, ?_, ?_, ?_⟩
  · rw [(config_survives_removal RW9 "c" 1 2 (some 5) (by decide)).1]
    decide
  · rw [(config_survives_removal RW9 "c" 1 2 (some 5) (by decide)).2.2.2.2.1]
    decide
  · exact (config_survives_removal RW9 "c" 1 2 (some 5) (by decide)).2.2.2.2.2

theorem mem_rget_users_add (s : RegistryState) (ch : String) (q : QueueId)
    (uid : UserId) : uid ∈ rget_users (radd_user s ch q uid) ch := by
  have hget : rget_users (radd_user s ch q uid) ch =
      (let chans := if (dictGet s.channels ch).isSome = true then s.channels
                    else dictSet s.channels ch []
       let cur := (dictGet chans ch).getD []
       (if q ∈ cur then cur else cur ++ [q]).filterMap
         (fun x => dictGet (dictSet s.queueInfo q uid) x)) := by
    simp only [rget_users, radd_user, dictGet_dictSet_self]
  rw [hget]
  have hmem : ∀ cur : List QueueId, q ∈ (if q ∈ cur then cur else cur ++ [q]) := by
    intro cur
    by_cases hm : q ∈ cur
    · rw [if_pos hm]; exact hm
    · rw [if_neg hm]; simp
  exact List.mem_filterMap.mpr ⟨q, hmem _, dictGet_dictSet_self _ _ _⟩

/-- C10: `_add_user` records a principal without a `pk` attribute as user
id 0, but a principal whose `pk` attribute holds `None` (an anonymous
user) as user id `None` — not 0 —, and that `None` value then shows up in
the channel's `get_users` output (`subscriber_user_ids` /
`connected_user_ids`) and in the deduplicated presence-callback input. -/
theorem anonymous_user_ids (s : RegistryState) (ch : String) (q : QueueId) :
    resolve_user_id ⟨none⟩ = some 0 ∧
    resolve_user_id ⟨some none⟩ = none ∧
    resolve_user_id ⟨some none⟩ ≠ some 0 ∧
    (none : UserId) ∈ rget_users (radd_user s ch q (resolve_user_id ⟨some none⟩)) ch ∧
    (∀ l : List UserId,
      presenceInput (radd_user s ch q (resolve_user_id ⟨some none⟩)) ch = some l →
      (none : UserId) ∈ l) := by
  refine ⟨rfl, rfl, by decide, mem_rget_users_add s ch q none, ?_⟩
  intro l hl
  rw [presenceInput] at hl
  cases hcb : presence_callback_of (radd_user s ch q (resolve_user_id ⟨some none⟩)) ch with
  | none => rw [hcb] at hl; exact absurd hl (by simp)
  | some c =>
      rw [hcb] at hl
      have hleq : l = pyDedup
          (rget_users (radd_user s ch q (resolve_user_id ⟨some none⟩)) ch) := by
        exact (Option.some_injective _ hl).symm
      rw [hleq, mem_pyDedup]
      exact mem_rget_users_add s ch q none

theorem anonymous_user_ids_witness :
    resolve_user_id ⟨some none⟩ = none ∧
    (none : UserId) ∈ rget_users (radd_user RW9 "c" 2 (resolve_user_id ⟨some none⟩)) "c" ∧
    presenceInput (radd_user RW9 "c" 2 (resolve_user_id ⟨some none⟩)) "c"
      = some [some 4, none] ∧
    (none : UserId) ∈ [(some 4 : UserId), none] := by
  refine ⟨by decide, (anonymous_user_ids RW9 "c" 2).2.2.2.1, by decide, ?_⟩
  exact (anonymous_user_ids RW9 "c" 2).2.2.2.2 [some 4, none] (by decide)

/-- C3 (amended): whenever a presence broadcast fires for a channel with
a configured presence callback, the user-id list passed to the callback
is `list(dict.fromkeys(get_users(channel)))`: the duplicate-free list of
currently connected user ids in first-occurrence order of the registry's
queue iteration — a multi-tab user appears once, every connected id
appears, no other id appears — but it is not sorted. -/
theorem presence_input_dedup (r : RegistryState) (ch : String) (l : List UserId)
    (h : presenceInput r ch = some l) :
    l = pyDedup (rget_users r ch) ∧ l.Nodup ∧
    ∀ u : UserId, u ∈ l ↔ u ∈ rget_users r ch := by
  have hl : l = pyDedup (rget_users r ch) := by
    rw [presenceInput] at h
    cases hcb : presence_callback_of r ch with
    | none => rw [hcb] at h; exact absurd h (by simp)
    | some c => rw [hcb] at h; exact (Option.some_injective _ h).symm
  exact ⟨hl, hl ▸ nodup_pyDedup _, fun u => hl ▸ mem_pyDedup u _⟩


/-- C3 counterexample: with users 2 and 1 connected in that registry
order, the presence callback receives `[2, 1]` — the deduplicated list in
registry order — which is not the sorted duplicate-free list `[1, 2]`:
the code never sorts. -/
theorem presence_input_not_sorted_cex :
    presenceInput R3 "c" = some [some 2, some 1] ∧
    specSortedUnique (rget_users R3 "c") = [some 1, some 2] ∧
    ([some 2, some 1] : List UserId) ≠ [some 1, some 2] := by
  refine ⟨by decide, by decide, by decide⟩

theorem presence_input_dedup_witness :
    presenceInput R3 "c" = some [some 2, some 1] ∧
    ([some 2, some 1] : List UserId).Nodup ∧
    ((some 2 : UserId) ∈ ([some 2, some 1] : List UserId) ↔
      (some 2 : UserId) ∈ rget_users R3 "c") :=
  ⟨by decide,
   (presence_input_dedup R3 "c" [some 2, some 1] (by decide)).2.1,
   (presence_input_dedup R3 "c" [some 2, some 1] (by decide)).2.2 (some 2)⟩

end DsBroadcaster
